import Mathlib

/-!
Verification development for the `automation-scripts` repository.

Shallow embedding of the Python modules:
  * `src/scrapers/basic_scraper.py`  (rate limiter, URL validation, page fetch,
    news extraction)
  * `src/utils/config_loader.py`     (layered config resolution, typed accessors)
  * `src/utils/data_utils.py`        (JSON/CSV persistence)
  * `src/automations/schedule_task.py` (polling scheduler loop, immediate task run)

Times and durations are modelled as rationals; the value drawn by
`random.uniform(0, max_delay - min_delay)` is passed in as an explicit
oracle argument `u`; the file system is a map from paths to file contents;
the network is a function from URLs to outcomes.
-/

namespace Scraper

/-- Rate-limiting fields of a `BasicScraper` instance
(`rate_limit`, `min_delay`, `max_delay`, `last_request_time`). -/
structure RateLimitState where
  rate_limit : Bool
  min_delay : ℚ
  max_delay : ℚ
  last_request_time : ℚ
  deriving Repr, DecidableEq

/-- Model of `BasicScraper.enable_rate_limiting`: turns rate limiting on and stores the
delay bounds. -/
def enable_rate_limiting (s : RateLimitState) (minDelay maxDelay : ℚ) :
    RateLimitState :=
  { s with rate_limit := true, min_delay := minDelay, max_delay := maxDelay }

/-- Model of `BasicScraper._apply_rate_limiting`.

`now` is the reading of `time.time()` at entry, `now2` the reading at the
final `self.last_request_time = time.time()`, and `u` the value that
`random.uniform(0, self.max_delay - self.min_delay)` returns if it is called
(for a genuine uniform sample, `0 ≤ u ≤ max_delay - min_delay`).

Returns the new state together with `some d` when `time.sleep(d)` is executed
and `none` when no sleep happens. -/
def apply_rate_limiting (s : RateLimitState) (now now2 u : ℚ) :
    RateLimitState × Option ℚ :=
  if s.rate_limit = false then
    (s, none)
  else
    let elapsed := now - s.last_request_time
    if elapsed < s.min_delay then
      let delay := s.min_delay + u
      ({ s with last_request_time := now2 }, some delay)
    else
      ({ s with last_request_time := now2 }, none)

/-- The scheme and authority parts produced by `urllib.parse.urlparse`;
an absent part is the empty string, as in Python. -/
structure ParsedUrl where
  scheme : String
  netloc : String
  deriving Repr, DecidableEq

/-- Characters allowed after the first character of a URL scheme
(`urllib.parse.scheme_chars`). -/
def scheme_char (c : Char) : Bool :=
  c.isAlphanum || c = '+' || c = '-' || c = '.'

/-- Split a character list at the first colon: `some (before, after)` when a
colon occurs, `none` otherwise (mirrors `url.find(':')`). -/
def split_colon : List Char → Option (List Char × List Char)
  | [] => none
  | c :: cs =>
    if c = ':' then some ([], cs)
    else
      match split_colon cs with
      | some (a, b) => some (c :: a, b)
      | none => none

/-- Model of `urllib.parse.urlparse`, restricted to the scheme and netloc
components, mirroring CPython's `urlsplit`: the input is first preprocessed
by stripping leading WHATWG C0-control and space characters (codes up to
`0x20`) and then removing every tab, carriage return and line feed; the
scheme is then the lower-cased text before the first colon when that text
is non-empty, starts with an ASCII letter and consists of scheme
characters; the netloc is the text after a leading `//` of the remainder,
up to the first `/`, `?` or `#`. -/
def urlparse (url : String) : ParsedUrl :=
  let cs := (url.data.dropWhile (fun c => c.toNat ≤ 0x20)).filter
    (fun c => !(c = '\t' || c = '\r' || c = '\n'))
  let (schemeChars, rest) :=
    match split_colon cs with
    | some (before, after) =>
      if before.length > 0 &&
          (match cs with | c :: _ => c.isAlpha | [] => false) &&
          before.all scheme_char then
        (before.map Char.toLower, after)
      else ([], cs)
    | none => ([], cs)
  let netlocChars :=
    match rest with
    | '/' :: '/' :: r => r.takeWhile (fun c => !(c = '/' || c = '?' || c = '#'))
    | _ => []
  { scheme := String.mk schemeChars, netloc := String.mk netlocChars }

/-- A document element as the extraction code observes it: its stripped text
(`get_text(strip=True)`) and its `href` / `src` attributes (`get` returns
`None` when the attribute is missing). -/
structure Elem where
  text : String
  href : Option String
  src : Option String
  deriving Repr, DecidableEq

/-- An `<article>` node of the parsed document, holding the results of the
`select_one` calls made by `NewsScraper.extract_data`: first `h2`, first
`h3`, first `a`, first `p`, first `.description`, first `.date`, first
`time`, first `img` (absent selector result is `none`). -/
structure ArticleNode where
  h2 : Option Elem
  h3 : Option Elem
  a : Option Elem
  p : Option Elem
  descClass : Option Elem
  dateClass : Option Elem
  timeTag : Option Elem
  img : Option Elem
  deriving Repr, DecidableEq

/-- One extracted news record: the dictionary appended by
`NewsScraper.extract_data`, with exactly the keys
`title`, `link`, `description`, `date`, `image_url`. -/
structure Record where
  title : String
  link : String
  description : Option String
  date : Option String
  image_url : Option String
  deriving Repr, DecidableEq

/-- Model of `BasicScraper.resolve_url`: `None`/empty input yields `none`
(`if not relative_url`), otherwise `urljoin(base_url, relative_url)`.
`urljoin` itself is `urllib.parse.urljoin`, passed in as a function. -/
def resolve_url (urljoin : String → String → String) (base_url : String)
    (relative_url : Option String) : Option String :=
  match relative_url with
  | none => none
  | some r => if r = "" then none else some (urljoin base_url r)

/-- The body of the `for article in soup.select('article')` loop of
`NewsScraper.extract_data`: `some record` when a record is appended for this
node, `none` otherwise. -/
def extract_article (urljoin : String → String → String) (base_url : String)
    (art : ArticleNode) : Option Record :=
  match art.h2.orElse (fun _ => art.h3), art.a with
  | some title_elem, some link_elem =>
    let title := title_elem.text
    let link : Option String :=
      match link_elem.href with
      | none => none
      | some l => if l = "" then some l else resolve_url urljoin base_url (some l)
    let description := (art.p.orElse (fun _ => art.descClass)).map Elem.text
    let date := (art.dateClass.orElse (fun _ => art.timeTag)).map Elem.text
    let img_url : Option String :=
      match art.img with
      | some img_elem =>
        match img_elem.src with
        | some sc => if sc = "" then none else resolve_url urljoin base_url (some sc)
        | none => none
      | none => none
    match link with
    | some l =>
      if title ≠ "" ∧ l ≠ "" then
        some { title := title, link := l, description := description,
               date := date, image_url := img_url }
      else none
    | none => none
  | _, _ => none

/-- Model of `NewsScraper.extract_data`: the records appended for the article nodes,
in document order. -/
def extract_data (urljoin : String → String → String) (base_url : String)
    (soup : List ArticleNode) : List Record :=
  soup.filterMap (extract_article urljoin base_url)

/-- Outcome of `self.session.get` followed by `raise_for_status` and parsing:
a parsed document on success, an HTTP error status, or a transport error
(both raise a `RequestException`, caught in `get_page`). -/
inductive NetResult where
  | success (doc : List ArticleNode)
  | httpError
  | transportError
  deriving Repr, DecidableEq

/-- Observable side effects of one `get_page` call: the `time.sleep`
durations executed and the URLs actually requested over the network. -/
structure FetchEffects where
  sleeps : List ℚ
  requests : List String
  deriving Repr, DecidableEq

/-- Model of `BasicScraper.get_page`: validates the URL (non-empty scheme and netloc),
applies rate limiting, performs the GET and returns the parsed document, or
`none` on validation failure or request error. `net` models the network,
`now`/`now2`/`u` are the clock readings and the random draw passed to
`apply_rate_limiting`. -/
def get_page (net : String → NetResult) (s : RateLimitState) (url : String)
    (now now2 u : ℚ) : RateLimitState × Option (List ArticleNode) × FetchEffects :=
  let parsed := urlparse url
  if parsed.scheme = "" ∨ parsed.netloc = "" then
    (s, none, ⟨[], []⟩)
  else
    let rl := apply_rate_limiting s now now2 u
    let sleeps := rl.2.toList
    match net url with
    | .success doc => (rl.1, some doc, ⟨sleeps, [url]⟩)
    | .httpError => (rl.1, none, ⟨sleeps, [url]⟩)
    | .transportError => (rl.1, none, ⟨sleeps, [url]⟩)

end Scraper

namespace Config

/-- A Python value as it can flow through `ConfigLoader.get`: `None`, a
boolean, an integer or a string (environment and file lookups always produce
strings; the default may be any of these). -/
inductive PyVal where
  | pnone
  | pbool (b : Bool)
  | pint (n : ℤ)
  | pstr (s : String)
  deriving Repr, DecidableEq

/-- Python truthiness (`bool(value)`) on the modelled values. -/
def truthy : PyVal → Bool
  | .pnone => false
  | .pbool b => b
  | .pint n => decide (n ≠ 0)
  | .pstr s => decide (s ≠ "")

/-- Python `str.upper()` on the modelled (ASCII) strings, character by
character. -/
def py_upper (s : String) : String :=
  String.mk (s.data.map Char.toUpper)

/-- Python `str.lower()` on the modelled (ASCII) strings, character by
character. -/
def py_lower (s : String) : String :=
  String.mk (s.data.map Char.toLower)

/-- A `ConfigLoader` instance: the environment prefix, the process
environment (`os.environ.get`) and the parsed INI file
(`self.config.get section key`, `none` on `NoSectionError`/`NoOptionError`). -/
structure ConfigState where
  env_prefix : String
  env : String → Option String
  file : String → String → Option String

/-- The environment variable name consulted by `ConfigLoader.get`:
`{prefix}{SECTION}_{KEY}` upper-cased. -/
def env_var_name (st : ConfigState) (sect key : String) : String :=
  ConfigState.env_prefix st ++ py_upper sect ++ "_" ++ py_upper key

/-- Model of `ConfigLoader.get`: environment variable first, then the file section/key,
then the caller default. -/
def get (st : ConfigState) (sect key : String) (default : PyVal) : PyVal :=
  match st.env (env_var_name st sect key) with
  | some v => .pstr v
  | none =>
    match st.file sect key with
    | some v => .pstr v
    | none => default

/-- The token set recognized as true by `ConfigLoader.get_boolean`. -/
def true_tokens : List String := ["true", "yes", "1", "on", "t", "y"]

/-- Model of `ConfigLoader.get_boolean`: resolves via `get`; `None` stays `None`,
booleans pass through, a string is tested (lower-cased) against the token
set, and any other value falls back to Python truthiness (`bool(value)`). -/
def get_boolean (st : ConfigState) (sect key : String) (default : PyVal) :
    Option Bool :=
  match get st sect key default with
  | .pnone => none
  | .pbool b => some b
  | .pstr s => some (true_tokens.contains (py_lower s))
  | v => some (truthy v)

end Config

namespace DataUtils

/-- A Python dictionary key as `json.dump` accepts it: a string or an
integer (an integer key is serialized as its decimal string). -/
inductive PyKey where
  | kstr (s : String)
  | kint (n : ℤ)
  deriving Repr, DecidableEq

mutual
/-- A JSON-serializable Python value: `None`, `bool`, `int`, `str`, `list`,
`tuple` or `dict` (the argument types accepted by `save_json`). -/
inductive Py where
  | pnone : Py
  | pbool : Bool → Py
  | pint : ℤ → Py
  | pstr : String → Py
  | plist : PyList → Py
  | ptuple : PyList → Py
  | pdict : PyDict → Py
  deriving Repr, DecidableEq
/-- The elements of a Python list or tuple, in order. -/
inductive PyList where
  | nil : PyList
  | cons : Py → PyList → PyList
  deriving Repr, DecidableEq
/-- The key/value pairs of a Python dict, in insertion order. -/
inductive PyDict where
  | nil : PyDict
  | cons : PyKey → Py → PyDict → PyDict
  deriving Repr, DecidableEq
end

mutual
/-- A JSON document tree, the meaning of the text `json.dump` writes. -/
inductive Json where
  | jnull : Json
  | jbool : Bool → Json
  | jint : ℤ → Json
  | jstr : String → Json
  | jarr : JsonList → Json
  | jobj : JsonObj → Json
  deriving Repr, DecidableEq
/-- Elements of a JSON array, in order. -/
inductive JsonList where
  | nil : JsonList
  | cons : Json → JsonList → JsonList
  deriving Repr, DecidableEq
/-- Members of a JSON object, in order; keys are strings. -/
inductive JsonObj where
  | nil : JsonObj
  | cons : String → Json → JsonObj → JsonObj
  deriving Repr, DecidableEq
end

/-- How `json.dump` renders a dict key: strings stay themselves, integer
keys become their decimal string. -/
def keyStr : PyKey → String
  | .kstr s => s
  | .kint n => toString n

mutual
/-- Model of `json.dump`: the JSON tree written for a Python value. Lists and tuples
both serialize as arrays; dict keys are rendered with `keyStr`. -/
def jsonOfPy : Py → Json
  | .pnone => .jnull
  | .pbool b => .jbool b
  | .pint n => .jint n
  | .pstr s => .jstr s
  | .plist xs => .jarr (jsonOfPyList xs)
  | .ptuple xs => .jarr (jsonOfPyList xs)
  | .pdict kvs => .jobj (jsonOfPyDict kvs)
def jsonOfPyList : PyList → JsonList
  | .nil => .nil
  | .cons x xs => .cons (jsonOfPy x) (jsonOfPyList xs)
def jsonOfPyDict : PyDict → JsonObj
  | .nil => .nil
  | .cons k v kvs => .cons (keyStr k) (jsonOfPy v) (jsonOfPyDict kvs)
end

mutual
/-- Model of `json.load`: the Python value built from a JSON tree. Arrays always
become lists; object keys always become strings. -/
def pyOfJson : Json → Py
  | .jnull => .pnone
  | .jbool b => .pbool b
  | .jint n => .pint n
  | .jstr s => .pstr s
  | .jarr xs => .plist (pyOfJsonList xs)
  | .jobj kvs => .pdict (pyOfJsonObj kvs)
def pyOfJsonList : JsonList → PyList
  | .nil => .nil
  | .cons x xs => .cons (pyOfJson x) (pyOfJsonList xs)
def pyOfJsonObj : JsonObj → PyDict
  | .nil => .nil
  | .cons k v kvs => .cons (.kstr k) (pyOfJson v) (pyOfJsonObj kvs)
end

mutual
/-- A Python value is round-trip safe when it contains no tuple and every
dict key is a string. -/
def goodPy : Py → Bool
  | .pnone => true
  | .pbool _ => true
  | .pint _ => true
  | .pstr _ => true
  | .plist xs => goodPyList xs
  | .ptuple _ => false
  | .pdict kvs => goodPyDict kvs
def goodPyList : PyList → Bool
  | .nil => true
  | .cons x xs => goodPy x && goodPyList xs
def goodPyDict : PyDict → Bool
  | .nil => true
  | .cons k v kvs =>
    (match k with | .kstr _ => true | .kint _ => false) && goodPy v && goodPyDict kvs
end

/-- The file system as `save_json`/`load_json` observe it: JSON files by
path (a file's content is the tree its text denotes). -/
abbrev FS : Type := String → Option Json

/-- Model of `save_json`: serializes `data` and atomically replaces the target file;
the `pretty` flag only changes whitespace of the written text, not the tree.
Returns the new file system and the success flag. -/
def save_json (fs : FS) (data : Py) (filepath : String) (_pretty : Bool) :
    FS × Bool :=
  (fun p => if p = filepath then some (jsonOfPy data) else fs p, true)

/-- Model of `load_json`: `none` when the file is absent, otherwise the Python value
parsed from its content. -/
def load_json (fs : FS) (filepath : String) : Option Py :=
  match fs filepath with
  | none => none
  | some j => some (pyOfJson j)

/-- A CSV row as `save_csv` receives it: a dictionary of field name to
value, in key order. -/
abbrev Row : Type := List (String × String)

/-- The file system as `save_csv` observes it: CSV files by path (a file's
content is the row data it stores, headers derived from the first row). -/
abbrev CsvFS : Type := String → Option (List Row)

/-- Model of `save_csv`: `if not data` reports failure before touching the file
system; otherwise writes the rows atomically to the target and succeeds. -/
def save_csv (fs : CsvFS) (data : List Row) (filepath : String) :
    CsvFS × Bool :=
  if data = [] then (fs, false)
  else (fun p => if p = filepath then some data else fs p, true)

end DataUtils

namespace Scheduler

/-- The behaviour of one scheduled task invocation: it returns a boolean or
raises an exception. -/
inductive TaskOutcome where
  | ok (result : Bool)
  | exc
  deriving Repr, DecidableEq

/-- Whether the invocation raises. -/
def TaskOutcome.raises : TaskOutcome → Bool
  | .ok _ => false
  | .exc => true

/-- One tick of the polling loop: the outcomes of the jobs due at that tick,
in the order `schedule.run_pending()` runs them. -/
abbrev Tick : Type := List TaskOutcome

/-- Model of `schedule.run_pending()` on one tick: the external `schedule` library
runs each due job and does not catch job exceptions, so the call raises
exactly when some due job raises. -/
def run_pending (tick : Tick) : Bool :=
  tick.any TaskOutcome.raises

/-- Model of `run_scheduler` over a finite trace of ticks ending in a
`KeyboardInterrupt`: each iteration calls `run_pending` then sleeps; an
exception escaping `run_pending` is caught by the loop-level handler, logged
as a scheduler error, and makes the function return `False`; reaching the
end of the trace models the interrupt, logged and returning `True`. The
second component counts the ticks that completed without an exception. -/
def run_scheduler : List Tick → Bool × ℕ
  | [] => (true, 0)
  | t :: ts =>
    if run_pending t then (false, 0)
    else
      let r := run_scheduler ts
      (r.1, r.2 + 1)

/-- Model of `run_task_now`: looks the task up in the `tasks` dict; an unknown name
logs an error and returns `False`; a known task runs inside a per-task
`try`/`except`, returning its result, or `False` when it raises. -/
def run_task_now (tasks : List String) (behavior : String → TaskOutcome)
    (task_name : String) : Bool :=
  if tasks.contains task_name then
    match behavior task_name with
    | .ok r => r
    | .exc => false
  else false

end Scheduler

namespace Scraper

/-- Claim C1, counterexample. With bounds `[1, 3]`, a first request at time
`1/2` sleeps and draws the randomized delay `3` (`u = 2`), finishing at time
`3`. A second request at time `5` has elapsed time `2`, which is below the
recorded randomized value `3`, yet the code performs no sleep: the gate for
the next check is the fixed `min_delay`, not the recorded random delay. -/
theorem rate_gate_not_randomized_counterexample :
    (Scraper.apply_rate_limiting ⟨true, 1, 3, 0⟩ (1/2) 3 2).2 = some 3 ∧
    (5 : ℚ) - ((Scraper.apply_rate_limiting ⟨true, 1, 3, 0⟩ (1/2) 3 2).1).last_request_time <
      (1 : ℚ) + 2 ∧
    (Scraper.apply_rate_limiting
      (Scraper.apply_rate_limiting ⟨true, 1, 3, 0⟩ (1/2) 3 2).1 5 6 0).2 = none := by
  refine ⟨?_, ?_, ?_⟩ <;> norm_num [Scraper.apply_rate_limiting]

/-- Claim C1, amended. With rate limiting enabled, the elapsed-time gate of
every request is the fixed `min_delay`; when the gate forces a wait, the
freshly drawn uniform value `u` only determines that request's sleep
duration `min_delay + u`; and the post-state records only the new
`last_request_time`, never the drawn value, so the next request's gate is
again the fixed `min_delay`. -/
theorem rate_gate_is_fixed_min_delay (s : RateLimitState) (now now2 u : ℚ)
    (h : s.rate_limit = true) :
    ((apply_rate_limiting s now now2 u).2.isSome ↔
      now - s.last_request_time < s.min_delay) ∧
    (now - s.last_request_time < s.min_delay →
      (apply_rate_limiting s now now2 u).2 = some (s.min_delay + u)) ∧
    (apply_rate_limiting s now now2 u).1 = { s with last_request_time := now2 } := by
  simp only [apply_rate_limiting, h]
  split
  · simp_all
  · split <;> simp_all

/-- Concrete instance of `rate_gate_is_fixed_min_delay` at state
`⟨true, 1, 3, 0⟩`, times `1/2` and `1`, draw `1`. -/
theorem rate_gate_is_fixed_min_delay_witness :
    ((apply_rate_limiting ⟨true, 1, 3, 0⟩ (1/2) 1 1).2.isSome ↔
      (1/2 : ℚ) - 0 < 1) ∧
    ((1/2 : ℚ) - 0 < 1 →
      (apply_rate_limiting ⟨true, 1, 3, 0⟩ (1/2) 1 1).2 = some (1 + 1)) ∧
    (apply_rate_limiting ⟨true, 1, 3, 0⟩ (1/2) 1 1).1 = ⟨true, 1, 3, 1⟩ :=
  rate_gate_is_fixed_min_delay ⟨true, 1, 3, 0⟩ (1/2) 1 1 rfl

/-- Claim C2. With rate limiting enabled, `min_delay ≤ max_delay`, a uniform
draw `u ∈ [0, max_delay - min_delay]` and a clock that has not gone
backwards, a request whose elapsed time is below `min_delay` sleeps for a
duration in `[min_delay, max_delay]` that is non-negative, and a request
whose elapsed time is at least `min_delay` does not sleep. -/
theorem sleep_duration_within_bounds (s : RateLimitState) (now now2 u : ℚ)
    (hrl : s.rate_limit = true) (_hmm : s.min_delay ≤ s.max_delay)
    (hu0 : 0 ≤ u) (hu1 : u ≤ s.max_delay - s.min_delay)
    (hclock : s.last_request_time ≤ now) :
    (now - s.last_request_time < s.min_delay →
      (apply_rate_limiting s now now2 u).2 = some (s.min_delay + u) ∧
        s.min_delay ≤ s.min_delay + u ∧ s.min_delay + u ≤ s.max_delay ∧
        0 ≤ s.min_delay + u) ∧
    (s.min_delay ≤ now - s.last_request_time →
      (apply_rate_limiting s now now2 u).2 = none) := by
  constructor
  · intro hlt
    refine ⟨?_, by linarith, by linarith, by linarith⟩
    simp only [apply_rate_limiting, hrl]
    simp [hlt]
  · intro hge
    simp only [apply_rate_limiting, hrl]
    simp [not_lt.mpr hge]

/-- Concrete instance of `sleep_duration_within_bounds` at state
`⟨true, 1, 3, 0⟩`, times `1/2` and `1`, draw `1`. -/
theorem sleep_duration_within_bounds_witness :
    ((1/2 : ℚ) - 0 < 1 →
      (apply_rate_limiting ⟨true, 1, 3, 0⟩ (1/2) 1 1).2 = some (1 + 1) ∧
        (1 : ℚ) ≤ 1 + 1 ∧ (1 : ℚ) + 1 ≤ 3 ∧ (0 : ℚ) ≤ 1 + 1) ∧
    ((1 : ℚ) ≤ (1/2 : ℚ) - 0 →
      (apply_rate_limiting ⟨true, 1, 3, 0⟩ (1/2) 1 1).2 = none) :=
  sleep_duration_within_bounds ⟨true, 1, 3, 0⟩ (1/2) 1 1 rfl (by norm_num)
    (by norm_num) (by norm_num) (by norm_num)

end Scraper

namespace Scraper

/-- Claim C3. The news extraction emits a record for an article node only
when both the title text and the resolved link are non-empty: every record
in the output has a non-empty `title` and a non-empty `link` (the record
fields are exactly `title`, `link`, `description`, `date`, `image_url` by
the `Record` type); a node with no `h2`/`h3` title element produces no
record, a node with no `a` element produces no record, and a node whose
`a` element has no `href` produces no record. -/
theorem extract_record_requires_title_and_link
    (urljoin : String → String → String) (base_url : String)
    (soup : List ArticleNode) (r : Record)
    (art0 art1 art2 : ArticleNode) (le2 : Elem)
    (hr : r ∈ extract_data urljoin base_url soup)
    (h02 : art0.h2 = none) (h03 : art0.h3 = none)
    (h1a : art1.a = none)
    (h2a : art2.a = some le2) (h2h : le2.href = none) :
    (r.title ≠ "" ∧ r.link ≠ "") ∧
    extract_article urljoin base_url art0 = none ∧
    extract_article urljoin base_url art1 = none ∧
    extract_article urljoin base_url art2 = none := by
  refine ⟨?_, ?_, ?_, ?_⟩
  · obtain ⟨art, -, hart⟩ := List.mem_filterMap.mp hr
    unfold extract_article at hart
    split at hart
    · dsimp only at hart
      split at hart
      · split at hart
        · rename_i hcond
          obtain rfl := Option.some.inj hart
          exact ⟨hcond.1, hcond.2⟩
        · exact absurd hart (by simp)
      · exact absurd hart (by simp)
    · exact absurd hart (by simp)
  · unfold extract_article
    rw [h02, h03]
    rfl
  · unfold extract_article
    rw [h1a]
    cases art1.h2.orElse fun _ => art1.h3 <;> rfl
  · unfold extract_article
    rw [h2a]
    cases hh2 : art2.h2.orElse fun _ => art2.h3 <;> simp [h2h]

/-- Concrete instance of `extract_record_requires_title_and_link`: a
document with one complete article, checked against a title-less node, an
anchor-less node and a node whose anchor has no `href`. -/
theorem extract_record_requires_title_and_link_witness :
    ((⟨"Headline", "u/x", none, none, none⟩ : Record).title ≠ "" ∧
      (⟨"Headline", "u/x", none, none, none⟩ : Record).link ≠ "") ∧
    extract_article (fun b r => b ++ r) "u/"
      ⟨none, none, some ⟨"t", some "x", none⟩, none, none, none, none, none⟩ = none ∧
    extract_article (fun b r => b ++ r) "u/"
      ⟨some ⟨"T", none, none⟩, none, none, none, none, none, none, none⟩ = none ∧
    extract_article (fun b r => b ++ r) "u/"
      ⟨some ⟨"T", none, none⟩, none, some ⟨"t", none, none⟩, none, none, none,
        none, none⟩ = none :=
  extract_record_requires_title_and_link (fun b r => b ++ r) "u/"
    [⟨some ⟨"Headline", none, none⟩, none, some ⟨"", some "x", none⟩, none, none,
      none, none, none⟩]
    ⟨"Headline", "u/x", none, none, none⟩
    ⟨none, none, some ⟨"t", some "x", none⟩, none, none, none, none, none⟩
    ⟨some ⟨"T", none, none⟩, none, none, none, none, none, none, none⟩
    ⟨some ⟨"T", none, none⟩, none, some ⟨"t", none, none⟩, none, none, none,
      none, none⟩
    ⟨"t", none, none⟩
    (by decide) rfl rfl rfl rfl rfl

end Scraper

namespace Scheduler

/-- Claim C4, counterexample. It is not the case that every tick of a trace
gets processed regardless of task outcomes: a trace whose first tick
contains a raising job stops the loop at once (zero ticks complete and the
loop reports failure), so a job exception does abort the polling loop. -/
theorem task_exception_aborts_loop_counterexample :
    ¬ (∀ ticks : List Tick, (run_scheduler ticks).2 = ticks.length) := by
  intro h
  exact absurd (h [[TaskOutcome.exc]]) (by decide)

/-- Claim C4, amended. An exception raised by a job during the polling loop
escapes `schedule.run_pending`, is caught by the loop-level handler and
aborts the loop with a failure result after the exception-free prefix of
ticks; later ticks never run. Per-job catching that returns `False` without
propagating exists only in `run_task_now` (immediate execution). -/
theorem task_exception_aborts_loop (pre post : List Tick) (t : Tick)
    (tasks : List String) (behavior : String → TaskOutcome) (name : String)
    (hpre : ∀ tk ∈ pre, run_pending tk = false)
    (ht : run_pending t = true) (hb : behavior name = TaskOutcome.exc) :
    run_scheduler (pre ++ t :: post) = (false, pre.length) ∧
    run_task_now tasks behavior name = false := by
  constructor
  · induction pre with
    | nil => simp [run_scheduler, ht]
    | cons p ps ih =>
      have hp : run_pending p = false := hpre p (List.mem_cons_self p ps)
      have ih2 := ih (fun tk htk => hpre tk (List.mem_cons_of_mem p htk))
      simp [run_scheduler, hp, ih2]
  · cases hc : tasks.contains name <;> simp [run_task_now, hc, hb]

/-- Concrete instance of `task_exception_aborts_loop`: a clean first tick,
a second tick whose second job raises, a third tick that never runs. -/
theorem task_exception_aborts_loop_witness :
    ((∀ tk ∈ [[TaskOutcome.ok true]], run_pending tk = false) ∧
      run_pending [TaskOutcome.ok true, TaskOutcome.exc] = true ∧
      (fun _ : String => TaskOutcome.exc) "backup" = TaskOutcome.exc) ∧
    (run_scheduler [[TaskOutcome.ok true], [TaskOutcome.ok true, TaskOutcome.exc],
        [TaskOutcome.ok false]] = (false, 1) ∧
      run_task_now ["backup", "report", "clean"] (fun _ => TaskOutcome.exc)
        "backup" = false) :=
  ⟨⟨by decide, by decide, rfl⟩,
    task_exception_aborts_loop [[TaskOutcome.ok true]] [[TaskOutcome.ok false]]
      [TaskOutcome.ok true, TaskOutcome.exc] ["backup", "report", "clean"]
      (fun _ => TaskOutcome.exc) "backup" (by decide) (by decide) rfl⟩

end Scheduler

namespace Config

/-- Claim C5. Configuration lookup resolves env → file → default and the
order is never reversed: a set environment variable decides the result for
every file content; with the environment absent, a present file entry
decides it; the caller default is returned exactly when both are absent. -/
theorem config_resolution_order (st1 st2 st3 : ConfigState) (sect key : String)
    (default : PyVal) (v w : String) (file2 : String → String → Option String)
    (h1 : st1.env (env_var_name st1 sect key) = some v)
    (h2e : st2.env (env_var_name st2 sect key) = none)
    (h2f : st2.file sect key = some w)
    (h3e : st3.env (env_var_name st3 sect key) = none)
    (h3f : st3.file sect key = none) :
    get st1 sect key default = .pstr v ∧
    get { st1 with file := file2 } sect key default = .pstr v ∧
    get st2 sect key default = .pstr w ∧
    get st3 sect key default = default := by
  have h1a : st1.env (ConfigState.env_prefix st1 ++ py_upper sect ++ "_" ++ py_upper key) =
      some v := h1
  have h2ea : st2.env (ConfigState.env_prefix st2 ++ py_upper sect ++ "_" ++ py_upper key) =
      none := h2e
  have h3ea : st3.env (ConfigState.env_prefix st3 ++ py_upper sect ++ "_" ++ py_upper key) =
      none := h3e
  refine ⟨?_, ?_, ?_, ?_⟩
  · simp [get, env_var_name, h1a]
  · simp [get, env_var_name, h1a]
  · simp [get, env_var_name, h2ea, h2f]
  · simp [get, env_var_name, h3ea, h3f]

/-- Concrete instance of `config_resolution_order`: env var `APP_DB_HOST`
set to `prod` wins over the file value `localhost` and over any replacement
file; without the env var the file value wins; with neither the caller
default `5432` is returned. -/
theorem config_resolution_order_witness :
    get ⟨"APP_", fun n => if n = "APP_DB_HOST" then some "prod" else none,
        fun s k => if s = "db" ∧ k = "host" then some "localhost" else none⟩
      "db" "host" (.pint 5432) = .pstr "prod" ∧
    get { (⟨"APP_", fun n => if n = "APP_DB_HOST" then some "prod" else none,
        fun s k => if s = "db" ∧ k = "host" then some "localhost" else none⟩ :
          ConfigState) with file := fun _ _ => some "other" }
      "db" "host" (.pint 5432) = .pstr "prod" ∧
    get ⟨"APP_", fun _ => none,
        fun s k => if s = "db" ∧ k = "host" then some "localhost" else none⟩
      "db" "host" (.pint 5432) = .pstr "localhost" ∧
    get ⟨"APP_", fun _ => none, fun _ _ => none⟩
      "db" "host" (.pint 5432) = .pint 5432 :=
  config_resolution_order
    ⟨"APP_", fun n => if n = "APP_DB_HOST" then some "prod" else none,
      fun s k => if s = "db" ∧ k = "host" then some "localhost" else none⟩
    ⟨"APP_", fun _ => none,
      fun s k => if s = "db" ∧ k = "host" then some "localhost" else none⟩
    ⟨"APP_", fun _ => none, fun _ _ => none⟩
    "db" "host" (.pint 5432) "prod" "localhost" (fun _ _ => some "other")
    (by decide) (by decide) (by decide) (by decide) (by decide)

end Config

namespace Config

/-- Claim C6, counterexample. With no environment variable and no file
entry, `get_boolean` with the default `None` resolves to `None` and returns
`None`, not false, although `None` is not a boolean; and with an integer
default `5` it returns true by Python truthiness, although `5` is neither
boolean true nor a string of the token set. -/
theorem get_boolean_counterexample :
    get_boolean ⟨"APP_", fun _ => none, fun _ _ => none⟩ "a" "b" .pnone = none ∧
    (none : Option Bool) ≠ some false ∧
    get_boolean ⟨"APP_", fun _ => none, fun _ _ => none⟩ "a" "b" (.pint 5) =
      some true ∧
    (PyVal.pint 5 ≠ PyVal.pbool true ∧ PyVal.pint 5 ≠ PyVal.pstr "true") := by
  refine ⟨by decide, by decide, by decide, by decide, by decide⟩

/-- Claim C6, amended. `get_boolean` returns absence exactly when the
resolved value is `None`; it returns true exactly when the resolved value is
boolean true, a string whose lower-cased form is in the fixed token set
`true/yes/1/on/t/y`, or a non-boolean non-string value that is truthy (an
integer other than zero); every other resolved value yields false. -/
theorem get_boolean_characterization (st : ConfigState) (sect key : String)
    (default : PyVal) :
    (get_boolean st sect key default = none ↔
      get st sect key default = .pnone) ∧
    (get_boolean st sect key default = some true ↔
      (get st sect key default = .pbool true ∨
       (∃ s, get st sect key default = .pstr s ∧ py_lower s ∈ true_tokens) ∨
       (∃ n, get st sect key default = .pint n ∧ n ≠ 0))) := by
  cases hv : get st sect key default with
  | pnone => simp [get_boolean, hv]
  | pbool b => cases b <;> simp [get_boolean, hv]
  | pint n => simp [get_boolean, hv, truthy]
  | pstr s =>
    simp only [get_boolean, hv]
    constructor
    · simp
    · constructor
      · intro hsome
        refine Or.inr (Or.inl ⟨s, rfl, ?_⟩)
        simpa using hsome
      · intro h
        rcases h with h | ⟨s2, hs2, hmem⟩ | ⟨n, hn, -⟩
        · exact absurd h (by simp)
        · obtain rfl : s = s2 := by
            simpa using hs2
          simpa using hmem
        · exact absurd hn (by simp)

end Config

namespace DataUtils

mutual
theorem py_roundtrip : (x : Py) → goodPy x = true → pyOfJson (jsonOfPy x) = x
  | .pnone, _ => rfl
  | .pbool _, _ => rfl
  | .pint _, _ => rfl
  | .pstr _, _ => rfl
  | .plist xs, h => by
    have hx : goodPyList xs = true := by simpa [goodPy] using h
    simp only [jsonOfPy, pyOfJson]
    rw [pyList_roundtrip xs hx]
  | .ptuple xs, h => by simp [goodPy] at h
  | .pdict kvs, h => by
    have hx : goodPyDict kvs = true := by simpa [goodPy] using h
    simp only [jsonOfPy, pyOfJson]
    rw [pyDict_roundtrip kvs hx]
theorem pyList_roundtrip :
    (xs : PyList) → goodPyList xs = true → pyOfJsonList (jsonOfPyList xs) = xs
  | .nil, _ => rfl
  | .cons x xs, h => by
    simp only [goodPyList, Bool.and_eq_true] at h
    simp only [jsonOfPyList, pyOfJsonList]
    rw [py_roundtrip x h.1, pyList_roundtrip xs h.2]
theorem pyDict_roundtrip :
    (kvs : PyDict) → goodPyDict kvs = true → pyOfJsonObj (jsonOfPyDict kvs) = kvs
  | .nil, _ => rfl
  | .cons k v kvs, h => by
    simp only [goodPyDict, Bool.and_eq_true] at h
    obtain ⟨⟨hk, hv⟩, hkvs⟩ := h
    cases k with
    | kstr s =>
      simp only [jsonOfPyDict, pyOfJsonObj, keyStr]
      rw [py_roundtrip v hv, pyDict_roundtrip kvs hkvs]
    | kint n => simp at hk
end

end DataUtils

namespace DataUtils

/-- Claim C7, counterexample. Saving the tuple `(1,)` succeeds, but loading
the file back yields the list `[1]`, a different value: JSON serialization
does not round-trip every JSON-serializable sequence exactly. -/
theorem json_roundtrip_counterexample :
    (save_json (fun _ => none) (Py.ptuple (.cons (.pint 1) .nil))
      "data.json" true).2 = true ∧
    load_json (save_json (fun _ => none) (Py.ptuple (.cons (.pint 1) .nil))
      "data.json" true).1 "data.json" = some (Py.plist (.cons (.pint 1) .nil)) ∧
    Py.plist (.cons (.pint 1) .nil) ≠ Py.ptuple (.cons (.pint 1) .nil) := by
  refine ⟨rfl, ?_, by simp⟩
  simp [save_json, load_json, jsonOfPy, jsonOfPyList, pyOfJson, pyOfJsonList]

/-- Claim C7, amended. For every value whose mappings all have string keys
and whose sequences are lists (no tuples), `save_json` succeeds and a
subsequent `load_json` of the same path returns a value equal to the saved
one exactly. -/
theorem save_load_json_roundtrip (fs : FS) (filepath : String) (x : Py)
    (pretty : Bool) (h : goodPy x = true) :
    (save_json fs x filepath pretty).2 = true ∧
    load_json (save_json fs x filepath pretty).1 filepath = some x := by
  refine ⟨rfl, ?_⟩
  have hx := py_roundtrip x h
  simp [save_json, load_json, hx]

/-- Concrete instance of `save_load_json_roundtrip`: the dictionary
`{"name": "Test", "value": 42, "active": true}` written to `out.json` and
read back. -/
theorem save_load_json_roundtrip_witness :
    goodPy (Py.pdict (.cons (.kstr "name") (.pstr "Test")
      (.cons (.kstr "value") (.pint 42)
        (.cons (.kstr "active") (.pbool true) .nil)))) = true ∧
    ((save_json (fun _ => none)
        (Py.pdict (.cons (.kstr "name") (.pstr "Test")
          (.cons (.kstr "value") (.pint 42)
            (.cons (.kstr "active") (.pbool true) .nil))))
        "out.json" true).2 = true ∧
      load_json (save_json (fun _ => none)
        (Py.pdict (.cons (.kstr "name") (.pstr "Test")
          (.cons (.kstr "value") (.pint 42)
            (.cons (.kstr "active") (.pbool true) .nil))))
        "out.json" true).1 "out.json" =
        some (Py.pdict (.cons (.kstr "name") (.pstr "Test")
          (.cons (.kstr "value") (.pint 42)
            (.cons (.kstr "active") (.pbool true) .nil)))) ) :=
  ⟨by simp [goodPy, goodPyDict],
    save_load_json_roundtrip (fun _ => none) "out.json"
      (Py.pdict (.cons (.kstr "name") (.pstr "Test")
        (.cons (.kstr "value") (.pint 42)
          (.cons (.kstr "active") (.pbool true) .nil))))
      true (by simp [goodPy, goodPyDict])⟩

/-- Claim C9. `save_csv` on an empty row sequence reports failure and leaves
the entire file system unchanged: no file is created or modified at the
target path or anywhere else. -/
theorem save_csv_empty_reports_failure_no_write (fs : CsvFS) (filepath : String) :
    save_csv fs [] filepath = (fs, false) := rfl

end DataUtils

namespace Scraper

/-- Claim C8. A URL whose parse lacks a scheme or lacks an authority makes
`get_page` return absence after logging, with no sleep and no network
request, and without propagating an exception (the embedding is a total
function returning the unchanged state, `none`, and empty effect lists). -/
theorem invalid_url_returns_none_without_request
    (net : String → NetResult) (s : RateLimitState) (url : String)
    (now now2 u : ℚ)
    (h : (urlparse url).scheme = "" ∨ (urlparse url).netloc = "") :
    get_page net s url now now2 u = (s, none, ⟨[], []⟩) := by
  simp only [get_page]
  rw [if_pos h]

/-- Concrete instance of `invalid_url_returns_none_without_request` at the
schemeless URL `example.com`. -/
theorem invalid_url_returns_none_without_request_witness :
    ((urlparse "example.com").scheme = "" ∨ (urlparse "example.com").netloc = "") ∧
    get_page (fun _ => NetResult.transportError) ⟨false, 1, 3, 0⟩ "example.com"
      0 0 0 = (⟨false, 1, 3, 0⟩, none, ⟨[], []⟩) :=
  ⟨Or.inl (by decide),
    invalid_url_returns_none_without_request (fun _ => NetResult.transportError)
      ⟨false, 1, 3, 0⟩ "example.com" 0 0 0 (Or.inl (by decide))⟩

/-- Claim C10. A `get_page` call that fails URL validation leaves the
rate-limiter state unchanged even when rate limiting is enabled: no sleep is
performed and the last-request timestamp keeps its previous value, because
validation happens before `_apply_rate_limiting` is called. -/
theorem invalid_url_preserves_rate_state
    (net : String → NetResult) (s : RateLimitState) (url : String)
    (now now2 u : ℚ)
    (h : (urlparse url).scheme = "" ∨ (urlparse url).netloc = "") :
    (get_page net s url now now2 u).1 = s ∧
    (get_page net s url now now2 u).2.2.sleeps = [] ∧
    (get_page net s url now now2 u).1.last_request_time = s.last_request_time := by
  have hg : get_page net s url now now2 u = (s, none, ⟨[], []⟩) := by
    simp only [get_page]
    rw [if_pos h]
  rw [hg]
  exact ⟨rfl, rfl, rfl⟩

/-- Concrete instance of `invalid_url_preserves_rate_state` at the
authority-less URL `http:late`, with rate limiting enabled and a stale
last-request time that would otherwise force a sleep. -/
theorem invalid_url_preserves_rate_state_witness :
    ((urlparse "http:late").scheme = "" ∨ (urlparse "http:late").netloc = "") ∧
    ((get_page (fun _ => NetResult.success []) ⟨true, 2, 5, 100⟩ "http:late"
        100 101 1).1 = ⟨true, 2, 5, 100⟩ ∧
      (get_page (fun _ => NetResult.success []) ⟨true, 2, 5, 100⟩ "http:late"
        100 101 1).2.2.sleeps = [] ∧
      (get_page (fun _ => NetResult.success []) ⟨true, 2, 5, 100⟩ "http:late"
        100 101 1).1.last_request_time = (100 : ℚ)) :=
  ⟨Or.inr (by decide),
    invalid_url_preserves_rate_state (fun _ => NetResult.success [])
      ⟨true, 2, 5, 100⟩ "http:late" 100 101 1 (Or.inr (by decide))⟩

end Scraper

namespace Scraper

/-- Regression check of the `urlsplit` preprocessing: a URL with a leading
space and one with an embedded tab are accepted with scheme `http` and a
non-empty netloc, exactly as CPython's `urlparse` accepts them, while a
schemeless URL and an authority-less URL still parse to empty components. -/
theorem urlparse_preprocessing_check :
    urlparse " http://example.com" = ⟨"http", "example.com"⟩ ∧
    urlparse "ht\ttp://x" = ⟨"http", "x"⟩ ∧
    urlparse " htt\tp://example.com/a?b#c" = ⟨"http", "example.com"⟩ ∧
    urlparse "example.com" = ⟨"", ""⟩ ∧
    urlparse "http:late" = ⟨"http", ""⟩ := by
  refine ⟨by decide, by decide, by decide, by decide, by decide⟩

end Scraper
